import Mathlib

/-!
# Verification of the DNS-CPP lookup scheduler core

A shallow embedding of the scheduler and lookup state machines of the
DNS-CPP resolver core (src/src/core.cpp, src/src/remotelookup.cpp,
src/src/locallookup.h, src/src/queue.cpp and the headers under
src/include/dnscpp), together with proofs and refutations of the
specification's claims about them.

Times are modelled as integers (the C++ code uses `double` seconds; every
comparison and subtraction the scheduler performs is exact, so an exact
numeric type is faithful for the control flow being verified).
-/

namespace DnsCpp

/-! ## DNS responses

`Response` keeps exactly the header fields the core inspects:
the transaction id (`Response::id` via `Query::matches`), the question
name (`Question(response).name()`), the flag bits, the `rcode`, the
truncation bit, and the answer section (only its emptiness matters here).
-/

/-- The fields of a DNS response that the lookup core inspects. -/
structure Resp where
  tid : Nat
  qname : String
  flags : Nat
  rcode : Nat
  truncated : Bool
  answers : List Nat
  deriving DecidableEq, Repr

/-- `ns_r_nxdomain`: the NXDOMAIN response code. -/
def nxdomain : Nat := 3

/-- Terminal callbacks a lookup can deliver to its user-space handler
(`Handler::onReceived` / `onTimeout` / `onCancelled` / `onFailure`). -/
inductive Cb where
  | received
  | timeoutCb
  | cancelledCb
  | failureCb
  deriving DecidableEq, Repr

/-! ## The Queue (src/src/queue.cpp, src/include/dnscpp/queue.h)

`DNS::Queue` is a `std::list<std::shared_ptr<Lookup>>`; `push` appends and
stamps the element's `position` with the iterator of the new node,
`pop()` removes the front node, and `pop(item)` erases the node the stored
iterator designates, returning whether that node was `begin()`.

A `std::list` iterator is a stable handle to one node.  We model nodes by
their values: in the scheduler a lookup occurs in at most one queue and at
most once (invariant P1), so the stored position of `x` is the unique
occurrence of `x`, `pop(item)` is erasure of that occurrence, and
"`begin() == item->position()`" is "`x` is the head".  The theorems make
the uniqueness explicit by writing the queue as `l1 ++ x :: l2` with
`x ∉ l1`.
-/

/-- `Queue::push`: append at the back (stamping the position). -/
def qpush (q : List Nat) (x : Nat) : List Nat := q ++ [x]

/-- `Queue::pop()`: remove and return the front (oldest) element. -/
def qpopFront (q : List Nat) : Option (Nat × List Nat) :=
  match q with
  | [] => none
  | x :: rest => some (x, rest)

/-- `Queue::pop(item)`: erase the node the stored position designates and
report whether it was the front. -/
def qpopItem (q : List Nat) (x : Nat) : Bool × List Nat :=
  (decide (q.head? = some x), q.erase x)

/-! ## RemoteLookup (src/src/remotelookup.cpp)

Per-lookup state for a remote lookup: the user handler (a lookup only
ever clears it, in `cleanup()`, so a `Bool` "still set" flag is enough),
the attempt counter `_count`, the per-lookup random value `_id` used for
nameserver rotation, the query's transaction id / name / flag bits, the
last-send timestamp `_last`, the set `_subscriptions` of
`(inbound socket, nameserver)` pairs, and whether `_connection` (the TCP
fallback) is present.  Nameservers are identified by their index in
`Core::_nameservers` and inbound sockets by a numeric id.
-/

/-- The state of a `RemoteLookup`. -/
structure RL where
  handler : Bool
  count : Nat
  idr : Nat
  qid : Nat
  qname : String
  qflags : Nat
  last : Int
  subs : List (Nat × Nat)
  conn : Bool
  deriving DecidableEq, Repr

/-- Scheduler/settings parameters of a run: `Core::_capacity`,
`_attempts`, `_timeout`, `_rotate`, the number of nameservers, and the
outcome `Core::datagram` produces for each send in this run (`none` for a
hard send failure, `some inbound` for success). -/
structure Params where
  capacity : Nat
  attempts : Nat
  timeout : Int
  rotate : Bool
  nscount : Nat
  sendRes : Option Nat
  deriving DecidableEq, Repr

/-- `RemoteLookup::cleanup()`: forget the handler, drop the TCP
connection, unsubscribe from all inbound sockets.  (When the handler was
still set the C++ code additionally notifies the scheduler via
`Core::done`; that queue movement is modelled at the scheduler level.) -/
def cleanupR (s : RL) : RL :=
  { s with handler := false, conn := false, subs := [] }

/-- `RemoteLookup::execute(now)`: pick nameserver index
`rotate ? (count + id) % nscount : count % nscount`, send the datagram,
on send success subscribe (the subscription set gains the
`(inbound, nameserver)` pair unless already present), then increment
`_count`, set `_last = now`, and return `true`.  The result carries the
new state, the chosen nameserver index, and the return value. -/
def executeR (p : Params) (now : Int) (s : RL) : RL × Nat × Bool :=
  let idx := if p.rotate then (s.count + s.idr) % p.nscount else s.count % p.nscount
  let subs' :=
    match p.sendRes with
    | some inb => if (inb, idx) ∈ s.subs then s.subs else s.subs ++ [(inb, idx)]
    | none => s.subs
  ({ s with subs := subs', count := s.count + 1, last := now }, idx, true)

/-- Modelled from the spec: `FakeResponse` (src/src/fakeresponse.h is not
under src/).  Per §4.D.1 the fake carries the same transaction id,
question and flags as the original request, a non-error rcode and an
empty answer section. -/
def fakeResponse (s : RL) (resp : Resp) : Resp :=
  { tid := s.qid, qname := resp.qname, flags := s.qflags
    rcode := 0, truncated := false, answers := [] }

/-- `RemoteLookup::report(response)`: a no-op when the handler is gone;
otherwise cleanup first, then deliver — the real response unless the
rcode is NXDOMAIN and the hosts database contains the queried name, in
which case the synthesized fake response is delivered instead.  The
`Option Resp` is what reaches `Handler::onReceived`. -/
def reportR (hosts : List String) (s : RL) (resp : Resp) : RL × Option Resp :=
  if s.handler = false then (s, none)
  else if resp.rcode ≠ nxdomain then (cleanupR s, some resp)
  else if resp.qname ∉ hosts then (cleanupR s, some resp)
  else (cleanupR s, some (fakeResponse s resp))

/-- The events that can reach a `RemoteLookup` after construction:
a scheduler-driven `execute`, a datagram routed to it by the inbound
socket (delivered only while the matching subscription is registered),
a TCP response or TCP failure from its `Connection` (possible only while
`_connection` exists), a user cancel, and `timeout()`. -/
inductive Ev where
  | execEv (now : Int)
  | udpEv (inb ns : Nat) (resp : Resp) (now : Int)
  | tcpEv (resp : Resp)
  | tcpFailEv (resp : Resp)
  | cancelEv
  | timeoutEv
  deriving DecidableEq, Repr

/-- One event processed by a `RemoteLookup`, with the list of terminal
callbacks it delivers to the user handler.

* `execEv` is `execute` (never delivers a callback);
* `udpEv` is `Udp` delivery into `onReceived(ip, response)`: it reaches
  the lookup only through a registered subscription, is dropped when the
  query does not match or a TCP connection is in progress, reports a
  non-truncated response, and otherwise upgrades to TCP (fresh
  `_connection`, all UDP subscriptions dropped, `_last` reset to now);
* `tcpEv` is `onReceived(connection, response)` (dropped when cancelled
  or non-matching, else reported);
* `tcpFailEv` is `onFailure(connection, truncated)` (delivers the
  original truncated response via `onReceived`);
* `cancelEv` is `cancel()`;
* `timeoutEv` is `timeout()` — `cleanup()->onTimeout(this)`.  (No code
  in the repository ever invokes `timeout()`; with a cleared handler the
  C++ call would dereference null, modelled as delivering nothing.) -/
def stepEv (hosts : List String) (p : Params) (s : RL) (ev : Ev) : RL × List Cb :=
  match ev with
  | .execEv now => ((executeR p now s).1, [])
  | .udpEv inb ns resp nowT =>
    if (inb, ns) ∉ s.subs then (s, [])
    else if resp.tid ≠ s.qid then (s, [])
    else if s.conn then (s, [])
    else if resp.truncated = false then
      let r := reportR hosts s resp
      (r.1, r.2.toList.map fun _ => Cb.received)
    else ({ s with conn := true, subs := [], last := nowT }, [])
  | .tcpEv resp =>
    if s.conn = false then (s, [])
    else if s.handler = false then (s, [])
    else if resp.tid ≠ s.qid then (s, [])
    else
      let r := reportR hosts s resp
      (r.1, r.2.toList.map fun _ => Cb.received)
  | .tcpFailEv _ =>
    if s.conn = false then (s, [])
    else if s.handler = false then (s, [])
    else (cleanupR s, [Cb.received])
  | .cancelEv =>
    if s.handler = false then (s, [])
    else (cleanupR s, [Cb.cancelledCb])
  | .timeoutEv =>
    (cleanupR s, if s.handler then [Cb.timeoutCb] else [])

/-- Process a list of events in order, collecting delivered callbacks. -/
def runEvs (hosts : List String) (p : Params) (s : RL) : List Ev → RL × List Cb
  | [] => (s, [])
  | ev :: evs =>
    let r := stepEv hosts p s ev
    let r' := runEvs hosts p r.1 evs
    (r'.1, r.2 ++ r'.2)

/-! ## LocalLookup (src/src/locallookup.h) -/

/-- The state of a `LocalLookup`: the `_ready` flag, the handler
(still-set flag), and `_timestamp` (meaningful once `execute` ran). -/
structure LocalState where
  ready : Bool
  handler : Bool
  ts : Int
  deriving DecidableEq, Repr

/-- `LocalLookup::execute(now)`: a no-op returning `false` when already
ready; otherwise records the timestamp, asks the hosts database to
deliver the result (modelled from the spec: `Hosts::notify` is not under
src/; per §4.D.2/§6 it synchronously delivers a response to the handler —
note that the handler field is NOT cleared), marks the lookup ready, and
returns `false`. -/
def execLoc (now : Int) (s : LocalState) : LocalState × Bool × List Cb :=
  if s.ready then (s, false, [])
  else ({ s with ts := now, ready := true }, false,
        if s.handler then [Cb.received] else [])

/-- `LocalLookup::cancel()`: a no-op when the handler is gone; otherwise
clear the handler and deliver `onCancelled`.  (The `_ready` flag is left
untouched.) -/
def cancelLoc (s : LocalState) : LocalState × List Cb :=
  if s.handler = false then (s, [])
  else ({ s with handler := false }, [Cb.cancelledCb])

/-- `LocalLookup::~LocalLookup()`: when `_ready` is still false the
destructor invokes `_handler->onCancelled(this)` unconditionally.  This
predicate holds exactly when that call dereferences a null handler. -/
def dtorNullDeref (s : LocalState) : Bool :=
  s.ready = false ∧ s.handler = false

/-- Whether the `LocalLookup` destructor reaches the branch that calls
through the handler pointer. -/
def dtorCallsHandler (s : LocalState) : Bool :=
  s.ready = false

/-! ## The scheduler (src/src/core.cpp)

`Core` owns three queues of lookups: `_scheduled`, `_lookups` (the
in-flight queue) and `_ready`.  A queued lookup is either a
`RemoteLookup` or a `LocalLookup`.
-/

/-- A lookup as it sits in the scheduler's queues. -/
inductive Lk where
  | remote (r : RL)
  | loc (l : LocalState)
  deriving DecidableEq, Repr

/-- `Lookup::credits()`: `RemoteLookup` returns `attempts - count`
(`Nat` subtraction matches the unsigned C++ subtraction under the
code's own `assert(attempts >= count)`); `LocalLookup` always returns
`1`. -/
def creditsLk (p : Params) : Lk → Nat
  | .remote r => p.attempts - r.count
  | .loc _ => 1

/-- `Lookup::timestamp()`: `RemoteLookup::_last`, or
`LocalLookup::_timestamp`. -/
def tsLk : Lk → Int
  | .remote r => r.last
  | .loc l => l.ts

/-- `Lookup::execute(now)` as invoked by the scheduler, returning the
new state, the return value, and any callbacks delivered during the
call. -/
def executeLk (p : Params) (now : Int) : Lk → Lk × Bool × List Cb
  | .remote r =>
    let e := executeR p now r
    (.remote e.1, e.2.2, [])
  | .loc l =>
    let e := execLoc now l
    (.loc e.1, e.2.1, e.2.2)

/-- Callbacks fired while a lookup is destroyed when the last owning
reference is dropped.  `RemoteLookup::~RemoteLookup` runs `cleanup()`,
which discards the returned handler, so no user callback fires
(when the handler was still set, its `done(shared_from_this())` call is
additionally invalid during destruction).  `LocalLookup::~LocalLookup`
calls `_handler->onCancelled(this)` whenever `_ready` is false — a null
dereference when the handler is already gone (see `dtorNullDeref`). -/
def dtorCbs : Lk → List Cb
  | .remote _ => []
  | .loc l => if l.ready = false ∧ l.handler = true then [Cb.cancelledCb] else []

/-- The scheduler's three queues (`Core::_scheduled`, `Core::_lookups`,
`Core::_ready`). -/
structure Sched where
  scheduled : List Lk
  inflight : List Lk
  ready : List Lk
  deriving DecidableEq, Repr

/-- Step 3 of `Core::expire`: `while (_lookups.size() < _capacity &&
!_scheduled.empty())` pop a scheduled lookup, `execute` it, and push it
onto `_lookups` on `true`, back onto `_scheduled` on `false` with
credits remaining, onto `_ready` on `false` without credits.  The loop
is given explicit fuel; `none` means the fuel ran out with the loop
still running. -/
def step3 (p : Params) (now : Int) : Nat → Sched → Option (Sched × List Cb)
  | 0, _ => none
  | n + 1, s =>
    if s.inflight.length < p.capacity then
      match s.scheduled with
      | [] => some (s, [])
      | l :: rest =>
        let e := executeLk p now l
        let s' :=
          if e.2.1 then { s with scheduled := rest, inflight := s.inflight ++ [e.1] }
          else if creditsLk p e.1 ≠ 0 then { s with scheduled := rest ++ [e.1] }
          else { s with scheduled := rest, ready := s.ready ++ [e.1] }
        match step3 p now n s' with
        | none => none
        | some (s'', cbs) => some (s'', e.2.2 ++ cbs)
    else some (s, [])

/-- Step 4 of `Core::expire` on the in-flight list: `while (!_lookups
.empty() && _lookups.front()->timestamp() <= now - _timeout)` pop the
front; with credits left it goes to `_scheduled` (retry), otherwise to
`_ready`.  Returns the remaining in-flight list and the lookups moved
to scheduled resp. ready, in pop order. -/
def step4core (p : Params) (now : Int) : List Lk → List Lk × List Lk × List Lk
  | [] => ([], [], [])
  | l :: rest =>
    if tsLk l ≤ now - p.timeout then
      let r := step4core p now rest
      if creditsLk p l ≠ 0 then (r.1, l :: r.2.1, r.2.2)
      else (r.1, r.2.1, l :: r.2.2)
    else (l :: rest, [], [])

/-- Step 4 of `Core::expire` on the scheduler state. -/
def step4 (p : Params) (s : Sched) (now : Int) : Sched :=
  let r := step4core p now s.inflight
  { scheduled := s.scheduled ++ r.2.1, inflight := r.1, ready := s.ready ++ r.2.2 }

/-- Step 5 of `Core::expire`: the delay at which the timer is rearmed —
`0` when `_ready` is non-empty, else `max(0, front timestamp + timeout -
now)` when `_lookups` is non-empty, else no timer (and the code asserts
`_scheduled.empty()` there). -/
def rearm (p : Params) (s : Sched) (now : Int) : Option Int :=
  if s.ready ≠ [] then some 0
  else
    match s.inflight with
    | l :: _ => some (max 0 (tsLk l + p.timeout - now))
    | [] => none

/-- `Core::expire()` for a tick in which no buffered datagrams are
pending (step 1 delivers nothing, so the per-tick callback budget stays
at 8): step 2 pops up to 8 ready lookups (destroying them), step 3
starts scheduled lookups, step 4 times out stale in-flight lookups,
step 5 computes the timer.  Returns the new state, the timer delay, and
the callbacks delivered during the tick; `none` when the step-3 loop
did not finish within the fuel. -/
def expire (p : Params) (fuel : Nat) (s : Sched) (now : Int) :
    Option (Sched × Option Int × List Cb) :=
  let k := min 8 s.ready.length
  let dcbs := (s.ready.take k).foldr (fun l acc => dtorCbs l ++ acc) []
  let s1 : Sched := { s with ready := s.ready.drop k }
  match step3 p now fuel s1 with
  | none => none
  | some (s2, cbs) =>
    let s3 := step4 p s2 now
    some (s3, rearm p s3 now, dcbs ++ cbs)

/-- `Core::done(lookup)`: remove the lookup from the in-flight queue by
its stored position and push it onto `_ready`. -/
def doneOp (s : Sched) (l : Lk) : Sched :=
  { s with inflight := s.inflight.erase l, ready := s.ready ++ [l] }

/-- `Core::add`/`Core::reschedule`: push the lookup onto `_scheduled`
(and rearm the timer at 0, which does not change the queues). -/
def addOp (s : Sched) (l : Lk) : Sched :=
  { s with scheduled := s.scheduled ++ [l] }

/-- The truncated-response branch of `RemoteLookup::onReceived(ip,
response)` as it affects a lookup sitting in the in-flight queue: a TCP
connection is created, all UDP subscriptions are dropped, and `_last`
is reset to the current time — while the lookup stays where it is. -/
def udpTruncUpgrade (now : Int) : Lk → Lk
  | .remote r => .remote { r with conn := true, subs := [], last := now }
  | l => l

/-- Apply the TCP upgrade to the lookup at position `i` of the in-flight
queue. -/
def Sched.upgradeAt (s : Sched) (i : Nat) (now : Int) : Sched :=
  { s with inflight :=
      match s.inflight[i]? with
      | some l => s.inflight.set i (udpTruncUpgrade now l)
      | none => s.inflight }

/-- Scheduler states reachable from the empty scheduler through the
operations the code performs on the queues: `add`/`reschedule`,
`Core::done`, popping ready lookups (step 2), the start-scheduled loop
(step 3), the timeout pass (step 4), and the TCP upgrade of an
in-flight lookup. -/
inductive Reach (p : Params) : Sched → Prop where
  | init : Reach p ⟨[], [], []⟩
  | add (l : Lk) (s : Sched) : Reach p s → Reach p (addOp s l)
  | done (l : Lk) (s : Sched) : Reach p s → Reach p (doneOp s l)
  | drain (k : Nat) (s : Sched) : Reach p s →
      Reach p { s with ready := s.ready.drop k }
  | start (n : Nat) (now : Int) (s s' : Sched) (cbs : List Cb) :
      Reach p s → step3 p now n s = some (s', cbs) → Reach p s'
  | timeoutPass (now : Int) (s : Sched) : Reach p s → Reach p (step4 p s now)
  | upgrade (i : Nat) (now : Int) (s : Sched) : Reach p s →
      Reach p (s.upgradeAt i now)

end DnsCpp

namespace DnsCpp

/-! ## Concrete states used by the run theorems

A single remote lookup against a single nameserver that never responds,
with `timeout = 3` seconds and `capacity = 1`.
-/

/-- Settings with `attempts = 1` (one UDP send, then exhausted). -/
def paramsOneAttempt : Params := ⟨1, 1, 3, false, 1, some 0⟩

/-- Settings with `attempts = 2` (one retry available). -/
def paramsTwoAttempts : Params := ⟨1, 2, 3, false, 1, some 0⟩

/-- A freshly constructed `RemoteLookup` (no send performed yet). -/
def freshRemote : RL := ⟨true, 0, 0, 7, "x", 0, 0, [], false⟩

/-- `freshRemote` after its first `execute` at time 0: one attempt
counted, `_last = 0`, subscribed to inbound socket 0 / nameserver 0. -/
def sentRemote : RL := ⟨true, 1, 0, 7, "x", 0, 0, [(0, 0)], false⟩

end DnsCpp

namespace DnsCpp

/-! ## Claim C9: Queue operations -/

/-- **C9.** For every Queue and lookup `x` in it (written `l1 ++ x :: l2`
with `x ∉ l1`, so the stored position is the unique occurrence of `x`):
`pop(x)` removes exactly `x`, leaving the relative order of all other
elements unchanged, and returns `true` iff `x` was the front; `push`
appends at the back and `pop()` removes and returns the front (oldest)
element, so the queue is FIFO. -/
theorem c9_queue_ops (l1 l2 : List Nat) (x : Nat) (hx : x ∉ l1) :
    (qpopItem (l1 ++ x :: l2) x).2 = l1 ++ l2
  ∧ ((qpopItem (l1 ++ x :: l2) x).1 = true ↔ l1 = [])
  ∧ (∀ (a y : Nat) (q : List Nat), qpopFront (qpush (a :: q) y) = some (a, qpush q y)) := by
  refine ⟨?_, ?_, fun a y q => rfl⟩
  · show (l1 ++ x :: l2).erase x = l1 ++ l2
    rw [List.erase_append_right _ hx, List.erase_cons_head]
  · show decide ((l1 ++ x :: l2).head? = some x) = true ↔ l1 = []
    rw [decide_eq_true_iff]
    cases l1 with
    | nil => simp
    | cons a t =>
      simp only [List.cons_append, List.head?_cons, Option.some.injEq]
      constructor
      · intro ha
        exact absurd (ha ▸ List.mem_cons_self a t) hx
      · intro hcontra
        exact absurd hcontra (List.cons_ne_nil a t)

/-- Witness for C9 at a concrete queue. -/
theorem c9_queue_ops_witness :
    (6 : Nat) ∉ [5]
  ∧ ((qpopItem ([5] ++ 6 :: [7]) 6).2 = [5] ++ [7]
  ∧ ((qpopItem ([5] ++ 6 :: [7]) 6).1 = true ↔ ([5] : List Nat) = [])
  ∧ (∀ (a y : Nat) (q : List Nat), qpopFront (qpush (a :: q) y) = some (a, qpush q y))) :=
  ⟨by decide, c9_queue_ops [5] [7] 6 (by decide)⟩

/-! ## Claim C10: LocalLookup cancel followed by destruction -/

/-- **C10.** If `LocalLookup::cancel()` runs before the lookup has
executed (`_ready` still false, handler still set), it clears the
handler and leaves `_ready` false; destroying the lookup afterwards
reaches the destructor branch that calls through the handler pointer
(`dtorCallsHandler`), and since the handler is now null that call is a
null dereference (`dtorNullDeref`): the destructor's handler call is
not guarded against a prior cancel. -/
theorem c10_cancel_then_destroy (t : Int) :
    (cancelLoc ⟨false, true, t⟩).2 = [Cb.cancelledCb]
  ∧ (cancelLoc ⟨false, true, t⟩).1.handler = false
  ∧ (cancelLoc ⟨false, true, t⟩).1.ready = false
  ∧ dtorCallsHandler (cancelLoc ⟨false, true, t⟩).1 = true
  ∧ dtorNullDeref (cancelLoc ⟨false, true, t⟩).1 = true := by
  refine ⟨rfl, rfl, rfl, rfl, rfl⟩

/-! ## Claim C5: RemoteLookup::execute -/

/-- **C5.** Every call to `RemoteLookup::execute(now)` selects nameserver
index `(count + id) % N` when rotate is set and `count % N` otherwise,
increments `_count` by exactly one, sets `_last` to `now`, and returns
`true`; when the datagram send fails (`Core::datagram` returns null) no
subscription is added, and the lookup otherwise behaves identically
(same counter, timestamp and return value), so it will time out and
retry as if it had sent. -/
theorem c5_execute (p : Params) (r : RL) (now : Int) (h : 0 < p.nscount) :
    (executeR p now r).2.2 = true
  ∧ (executeR p now r).1.count = r.count + 1
  ∧ (executeR p now r).1.last = now
  ∧ (executeR p now r).2.1
      = (if p.rotate then (r.count + r.idr) % p.nscount else r.count % p.nscount)
  ∧ (p.sendRes = none → (executeR p now r).1.subs = r.subs)
  ∧ (executeR p now r).1.handler = r.handler := by
  refine ⟨rfl, rfl, rfl, rfl, ?_, rfl⟩
  intro hz
  simp [executeR, hz]

/-- Witness for C5: a failing send (`sendRes = none`) with two
nameservers and rotation off. -/
theorem c5_execute_witness :
    0 < (Params.mk 1 2 3 false 2 none).nscount
  ∧ ((executeR (Params.mk 1 2 3 false 2 none) 4 freshRemote).2.2 = true
  ∧ (executeR (Params.mk 1 2 3 false 2 none) 4 freshRemote).1.count = freshRemote.count + 1
  ∧ (executeR (Params.mk 1 2 3 false 2 none) 4 freshRemote).1.last = 4
  ∧ (executeR (Params.mk 1 2 3 false 2 none) 4 freshRemote).2.1
      = (if (Params.mk 1 2 3 false 2 none).rotate
          then (freshRemote.count + freshRemote.idr) % (Params.mk 1 2 3 false 2 none).nscount
          else freshRemote.count % (Params.mk 1 2 3 false 2 none).nscount)
  ∧ ((Params.mk 1 2 3 false 2 none).sendRes = none →
      (executeR (Params.mk 1 2 3 false 2 none) 4 freshRemote).1.subs = freshRemote.subs)
  ∧ (executeR (Params.mk 1 2 3 false 2 none) 4 freshRemote).1.handler = freshRemote.handler) :=
  ⟨by decide, c5_execute (Params.mk 1 2 3 false 2 none) freshRemote 4 (by decide)⟩

end DnsCpp

namespace DnsCpp

/-! ## Claim C6: RemoteLookup::report and the NXDOMAIN rewrite -/

/-- **C6.** For every `RemoteLookup` with a non-null handler,
`report(response)` delivers the real response via `onReceived` whenever
its rcode is not NXDOMAIN or the hosts database does not contain the
queried name; when the rcode is NXDOMAIN and the hosts database does
contain the name it instead delivers the synthesized fake response —
same transaction id, question and flags, a non-error rcode and an empty
answer section.  In both cases the state paired with the delivery is
the cleaned-up one: cleanup runs before the handler is invoked. -/
theorem c6_report (hosts : List String) (s : RL) (resp : Resp)
    (h : s.handler = true) :
    (resp.rcode ≠ nxdomain ∨ resp.qname ∉ hosts →
        reportR hosts s resp = (cleanupR s, some resp))
  ∧ (resp.rcode = nxdomain → resp.qname ∈ hosts →
        reportR hosts s resp = (cleanupR s, some (fakeResponse s resp))
      ∧ (fakeResponse s resp).tid = s.qid
      ∧ (fakeResponse s resp).qname = resp.qname
      ∧ (fakeResponse s resp).flags = s.qflags
      ∧ (fakeResponse s resp).rcode = 0
      ∧ (fakeResponse s resp).rcode ≠ nxdomain
      ∧ (fakeResponse s resp).answers = []) := by
  constructor
  · intro hcase
    by_cases hr : resp.rcode = nxdomain
    · rcases hcase with hc | hc
      · exact absurd hr hc
      · simp [reportR, h, hr, hc]
    · simp [reportR, h, hr]
  · intro h3 h4
    refine ⟨by simp [reportR, h, h3, h4], rfl, rfl, rfl, rfl, by simp [fakeResponse, nxdomain], rfl⟩

/-- Witness for C6: both branches at concrete inputs — an NXDOMAIN
response for a name present in the hosts database, rewritten to the
fake response. -/
theorem c6_report_witness :
    sentRemote.handler = true
  ∧ ((Resp.mk 7 "x" 5 nxdomain false [1]).rcode = nxdomain
  ∧ (Resp.mk 7 "x" 5 nxdomain false [1]).qname ∈ ["x"]
  ∧ (reportR ["x"] sentRemote (Resp.mk 7 "x" 5 nxdomain false [1])
      = (cleanupR sentRemote, some (fakeResponse sentRemote (Resp.mk 7 "x" 5 nxdomain false [1])))
    ∧ (fakeResponse sentRemote (Resp.mk 7 "x" 5 nxdomain false [1])).tid = sentRemote.qid
    ∧ (fakeResponse sentRemote (Resp.mk 7 "x" 5 nxdomain false [1])).qname
        = (Resp.mk 7 "x" 5 nxdomain false [1]).qname
    ∧ (fakeResponse sentRemote (Resp.mk 7 "x" 5 nxdomain false [1])).flags = sentRemote.qflags
    ∧ (fakeResponse sentRemote (Resp.mk 7 "x" 5 nxdomain false [1])).rcode = 0
    ∧ (fakeResponse sentRemote (Resp.mk 7 "x" 5 nxdomain false [1])).rcode ≠ nxdomain
    ∧ (fakeResponse sentRemote (Resp.mk 7 "x" 5 nxdomain false [1])).answers = [])) :=
  ⟨by decide, by decide, by decide,
   (c6_report ["x"] sentRemote (Resp.mk 7 "x" 5 nxdomain false [1]) (by decide)).2
     (by decide) (by decide)⟩

end DnsCpp

namespace DnsCpp

/-! ## Claim C3: at most one terminal callback -/

/-- The remaining "handler budget" of a remote lookup: 1 while the
handler is set, 0 once it has been cleared.  Every terminal callback
consumes it (`cleanup()` clears the handler) and nothing restores it. -/
def hv (s : RL) : Nat := if s.handler then 1 else 0

theorem executeR_handler (p : Params) (now : Int) (s : RL) :
    ((executeR p now s).1).handler = s.handler := rfl

theorem reportR_budget (hosts : List String) (s : RL) (resp : Resp) :
    (reportR hosts s resp).2.toList.length + hv (reportR hosts s resp).1 ≤ hv s := by
  unfold reportR
  split_ifs with h1 h2 h3 <;> simp_all [hv, cleanupR]

theorem reportR_silent (hosts : List String) (s : RL) (resp : Resp)
    (h : s.handler = false) : (reportR hosts s resp).2 = none := by
  simp [reportR, h]

/-- Each event consumes at most the remaining handler budget: the number
of callbacks it delivers plus the budget left afterwards never exceeds
the budget before. -/
theorem stepEv_budget (hosts : List String) (p : Params) (s : RL) (ev : Ev) :
    (stepEv hosts p s ev).2.length + hv (stepEv hosts p s ev).1 ≤ hv s := by
  cases ev with
  | execEv now =>
    simp only [stepEv, List.length_nil, Nat.zero_add]
    have : hv (executeR p now s).1 = hv s := by
      unfold hv
      rw [executeR_handler]
    rw [this]
  | udpEv inb ns resp now =>
    simp only [stepEv]
    split_ifs with h1 h2 h3 h4 <;> try simp
    · have := reportR_budget hosts s resp
      simpa using this
    · unfold hv
      simp
  | tcpEv resp =>
    simp only [stepEv]
    split_ifs with h1 h2 h3 <;> try simp
    have := reportR_budget hosts s resp
    simpa using this
  | tcpFailEv resp =>
    simp only [stepEv]
    split_ifs with h1 h2 <;> simp_all [hv, cleanupR]
  | cancelEv =>
    simp only [stepEv]
    split_ifs with h1 <;> simp_all [hv, cleanupR]
  | timeoutEv =>
    simp only [stepEv]
    cases h : s.handler <;> simp_all [hv, cleanupR]

/-- Once the handler has been cleared, no event delivers any callback. -/
theorem stepEv_silent (hosts : List String) (p : Params) (s : RL) (ev : Ev)
    (h : s.handler = false) : (stepEv hosts p s ev).2 = [] := by
  cases ev with
  | execEv now => rfl
  | udpEv inb ns resp now =>
    simp only [stepEv]
    split_ifs <;> simp_all [reportR_silent hosts s resp h]
  | tcpEv resp =>
    simp only [stepEv]
    split_ifs <;> simp_all
  | tcpFailEv resp =>
    simp only [stepEv]
    split_ifs <;> simp_all
  | cancelEv =>
    simp only [stepEv]
    split_ifs <;> simp_all
  | timeoutEv =>
    simp [stepEv, h]

theorem runEvs_budget (hosts : List String) (p : Params) :
    ∀ (evs : List Ev) (s : RL), (runEvs hosts p s evs).2.length ≤ hv s := by
  intro evs
  induction evs with
  | nil => intro s; simp [runEvs]
  | cons ev evs ih =>
    intro s
    have hb := stepEv_budget hosts p s ev
    have hr := ih (stepEv hosts p s ev).1
    calc (runEvs hosts p s (ev :: evs)).2.length
        = (stepEv hosts p s ev).2.length
          + (runEvs hosts p (stepEv hosts p s ev).1 evs).2.length := by
          simp [runEvs]
      _ ≤ (stepEv hosts p s ev).2.length + hv (stepEv hosts p s ev).1 :=
          Nat.add_le_add_left hr _
      _ ≤ hv s := hb

/-- **C3 (amended).** For every `RemoteLookup`, at most one terminal
callback out of {onReceived, onTimeout, onCancelled, onFailure} is ever
delivered along any sequence of events — at most `1` from a state whose
handler is still set, none at all once it has been cleared — and once
the handler field becomes null every later transport event, report,
cancel or failure delivers nothing. -/
theorem c3_remote_at_most_one (hosts : List String) (p : Params) :
    (∀ (s : RL) (evs : List Ev),
        (runEvs hosts p s evs).2.length ≤ if s.handler then 1 else 0)
  ∧ (∀ (s : RL) (ev : Ev), s.handler = false → (stepEv hosts p s ev).2 = []) :=
  ⟨fun s evs => runEvs_budget hosts p evs s,
   fun s ev h => stepEv_silent hosts p s ev h⟩

/-- Witness for C3 at a concrete lookup and event list: a full
lifecycle (execute, a matching answer, then two stray cancels) delivers
at most one callback, and a cancel after cleanup delivers nothing. -/
theorem c3_remote_at_most_one_witness :
    ((runEvs ["x"] paramsOneAttempt freshRemote
        [Ev.execEv 0, Ev.udpEv 0 0 (Resp.mk 7 "x" 0 0 false []) 1,
         Ev.cancelEv, Ev.cancelEv]).2.length
      ≤ if freshRemote.handler then 1 else 0)
  ∧ (stepEv ["x"] paramsOneAttempt (cleanupR freshRemote) Ev.cancelEv).2 = [] :=
  ⟨(c3_remote_at_most_one ["x"] paramsOneAttempt).1 freshRemote _,
   (c3_remote_at_most_one ["x"] paramsOneAttempt).2 (cleanupR freshRemote) Ev.cancelEv rfl⟩

/-- **C3 counterexample.** The claim "at most one terminal callback is
ever delivered" fails for a `LocalLookup`: `execute` reports the result
to the handler (first terminal callback) without clearing the handler
field, so a subsequent `cancel()` passes its null-handler test and
delivers `onCancelled` as a second terminal callback to the same
lookup. -/
theorem c3_local_two_callbacks :
    (execLoc 0 (LocalState.mk false true 0)).2.2
      ++ (cancelLoc (execLoc 0 (LocalState.mk false true 0)).1).2
      = [Cb.received, Cb.cancelledCb] := by decide

end DnsCpp

namespace DnsCpp

/-! ## Claim C1: the timeout path never delivers onTimeout

`RemoteLookup::timeout()` — the only function that calls
`Handler::onTimeout` — is never invoked anywhere in the repository.
When a lookup with no credits left times out, step 4 of `Core::expire`
pushes it onto `_ready`; the next tick's step 2 pops it, dropping the
last owning reference, and `RemoteLookup::~RemoteLookup` runs
`cleanup()`, which discards the handler without calling `onTimeout`.
The theorem runs the complete life of a lookup whose nameserver never
responds (`attempts = 1`, `timeout = 3`, `capacity = 1`; ticks at times
0, 3, 3) and shows that no callback whatsoever — in particular no
`onTimeout` — is ever delivered, after which the scheduler is empty and
the lookup destroyed. -/

/-- **C1 (divergence).** A `RemoteLookup` whose nameserver never
responds is executed, times out, is moved to `_ready` exhausted, and is
destroyed — with the complete callback trace of all three ticks empty:
`onTimeout` is never delivered. -/
theorem c1_no_timeout_delivered :
    expire paramsOneAttempt 10 ⟨[.remote freshRemote], [], []⟩ 0
      = some (⟨[], [.remote sentRemote], []⟩, some 3, [])
  ∧ expire paramsOneAttempt 10 ⟨[], [.remote sentRemote], []⟩ 3
      = some (⟨[], [], [.remote sentRemote]⟩, some 0, [])
  ∧ expire paramsOneAttempt 10 ⟨[], [], [.remote sentRemote]⟩ 3
      = some (⟨[], [], []⟩, none, [])
  ∧ dtorCbs (.remote sentRemote) = [] := by
  refine ⟨by decide, by decide, by decide, rfl⟩

/-! ## Claim C7: the rearm step and the idle assertion

The timer logic of step 5 matches the claim, but the idle assertion
does not hold in every reachable state: with `attempts = 2` the lookup
times out at t = 3 with one credit left and is pushed back onto
`_scheduled`; `_ready` and `_lookups` are then both empty, so the code
reaches the branch that arms no timer while asserting
`_scheduled.empty()` — and `_scheduled` holds the lookup. -/

/-- **C7 (divergence).** Second tick of a retriable lookup: the rearm
step arms no timer (`rearm` yields `none`) although the scheduled queue
is non-empty, violating the code's own `assert(_scheduled.empty())`
(and, in a release build, stranding the lookup forever). -/
theorem c7_idle_assert_violated :
    expire paramsTwoAttempts 10 ⟨[.remote freshRemote], [], []⟩ 0
      = some (⟨[], [.remote sentRemote], []⟩, some 3, [])
  ∧ expire paramsTwoAttempts 10 ⟨[], [.remote sentRemote], []⟩ 3
      = some (⟨[.remote sentRemote], [], []⟩, none, [])
  ∧ (⟨[.remote sentRemote], [], []⟩ : Sched).scheduled ≠ [] := by
  refine ⟨by decide, by decide, by decide⟩

/-! ## Claim C2: LocalLookup in the start-scheduled loop

`LocalLookup::execute` returns `false` while `credits()` is `1`, so
step 3 of `Core::expire` pushes it back onto `_scheduled` — and then
pops it again, `execute` returns `false` again (the `_ready` flag makes
it a no-op), `credits()` is still `1`, and the loop never terminates. -/

/-- **C2 (divergence).** With one `LocalLookup` in `_scheduled` and
`capacity = 1`, the start-scheduled loop of `expire()` runs forever:
for every fuel bound the loop is still running (`step3` yields `none`,
hence so does the whole tick), and the lookup never reaches the ready
queue.  This holds for any local-lookup state, executed or not, and at
any time. -/
theorem c2_start_loop_diverges :
    (∀ (n : Nat) (now : Int) (st : LocalState),
        step3 paramsTwoAttempts now n ⟨[.loc st], [], []⟩ = none)
  ∧ (∀ (n : Nat) (now : Int) (st : LocalState),
        expire paramsTwoAttempts n ⟨[.loc st], [], []⟩ now = none) := by
  have key : ∀ (n : Nat) (now : Int) (st : LocalState),
      step3 paramsTwoAttempts now n ⟨[.loc st], [], []⟩ = none := by
    intro n
    induction n with
    | zero => intro now st; rfl
    | succ n ih =>
      intro now st
      have hcap : (0 : Nat) < paramsTwoAttempts.capacity := by decide
      by_cases hr : st.ready
      · simp [step3, executeLk, execLoc, creditsLk, hr, hcap, ih]
      · simp [step3, executeLk, execLoc, creditsLk, hr, hcap, ih]
  refine ⟨key, ?_⟩
  intro n now st
  simp [expire, key]

end DnsCpp

namespace DnsCpp

/-! ## Helper lemmas on the scheduler steps -/

/-- The in-flight ordering invariant P3: timestamps are non-decreasing
along the queue. -/
def ordered (l : List Lk) : Prop :=
  List.Pairwise (fun a b => tsLk a ≤ tsLk b) l

/-- A lookup that asks to be placed in the in-flight queue (`execute`
returned `true`) carries the current time as its timestamp. -/
theorem executeLk_true_ts (p : Params) (now : Int) (lk : Lk)
    (h : (executeLk p now lk).2.1 = true) : tsLk (executeLk p now lk).1 = now := by
  cases lk with
  | remote r => rfl
  | loc l => cases hl : l.ready <;> simp [executeLk, execLoc, hl] at h

/-- The start-scheduled loop preserves the ordering invariant and the
bound "all in-flight timestamps are at most now": it only appends
lookups stamped `now` at the back. -/
theorem step3_ordered (p : Params) (now : Int) :
    ∀ (n : Nat) (s s' : Sched) (cbs : List Cb),
      step3 p now n s = some (s', cbs) →
      ordered s.inflight → (∀ l ∈ s.inflight, tsLk l ≤ now) →
      ordered s'.inflight ∧ ∀ l ∈ s'.inflight, tsLk l ≤ now := by
  intro n
  induction n with
  | zero => intro s s' cbs h; exact absurd h (by simp [step3])
  | succ n ih =>
    intro s s' cbs h h1 h2
    simp only [step3] at h
    split at h
    · split at h
      · cases h
        exact ⟨h1, h2⟩
      · rename_i l rest hsch
        split at h
        · exact absurd h (by simp)
        · rename_i s'' cbs' hrec
          cases h
          by_cases hts : (executeLk p now l).2.1 = true
          · rw [if_pos hts] at hrec
            refine ih _ _ _ hrec ?_ ?_
            · show ordered (s.inflight ++ [(executeLk p now l).1])
              rw [ordered, List.pairwise_append]
              refine ⟨h1, List.pairwise_singleton _ _, ?_⟩
              intro a ha b hb
              rw [List.mem_singleton] at hb
              rw [hb, executeLk_true_ts p now l hts]
              exact h2 a ha
            · intro x hx
              rw [List.mem_append] at hx
              rcases hx with hx | hx
              · exact h2 x hx
              · rw [List.mem_singleton] at hx
                rw [hx, executeLk_true_ts p now l hts]
          · rw [if_neg hts] at hrec
            split at hrec
            · exact ih _ _ _ hrec h1 h2
            · exact ih _ _ _ hrec h1 h2
    · cases h
      exact ⟨h1, h2⟩

/-- The start-scheduled loop keeps the in-flight queue within capacity:
it pushes only under the guard `inflight.length < capacity`. -/
theorem step3_length (p : Params) (now : Int) :
    ∀ (n : Nat) (s s' : Sched) (cbs : List Cb),
      step3 p now n s = some (s', cbs) →
      s.inflight.length ≤ p.capacity → s'.inflight.length ≤ p.capacity := by
  intro n
  induction n with
  | zero => intro s s' cbs h; exact absurd h (by simp [step3])
  | succ n ih =>
    intro s s' cbs h hlen
    simp only [step3] at h
    split at h
    · rename_i hcap
      split at h
      · cases h
        exact hlen
      · rename_i l rest hsch
        split at h
        · exact absurd h (by simp)
        · rename_i s'' cbs' hrec
          cases h
          split at hrec
          · refine ih _ _ _ hrec ?_
            show (s.inflight ++ [_]).length ≤ p.capacity
            rw [List.length_append, List.length_singleton]
            exact hcap
          · split at hrec
            · exact ih _ _ _ hrec hlen
            · exact ih _ _ _ hrec hlen
    · cases h
      exact hlen

/-- The timeout pass only pops from the front of the in-flight queue:
what remains is a sublist of what was there. -/
theorem step4core_sublist (p : Params) (now : Int) :
    ∀ l : List Lk, (step4core p now l).1.Sublist l := by
  intro l
  induction l with
  | nil => simp [step4core]
  | cons a rest ih =>
    simp only [step4core]
    split
    · split
      · exact ih.cons a
      · exact ih.cons a
    · exact List.Sublist.refl _

/-- The TCP upgrade replaces one in-flight element in place and keeps
the queue length. -/
theorem upgradeAt_length (s : Sched) (i : Nat) (now : Int) :
    (s.upgradeAt i now).inflight.length = s.inflight.length := by
  unfold Sched.upgradeAt
  cases h : s.inflight[i]? <;> simp

end DnsCpp

namespace DnsCpp

/-! ## Claim C4: inflight ordering invariant -/

/-- **C4 (amended).** The in-flight queue ordering by non-decreasing
timestamp is preserved by every step of `expire()` (given that the
timestamps already recorded are at most the current time, which the
tick maintains) and by `Core::done`; it is NOT preserved by the UDP
`onReceived` path that upgrades a lookup to TCP in place (see the
counterexample theorem). -/
theorem c4_order_preserved (p : Params) (s : Sched) (now : Int)
    (h1 : ordered s.inflight) (h2 : ∀ l ∈ s.inflight, tsLk l ≤ now) :
    (∀ (fuel : Nat) (s' : Sched) (t : Option Int) (cbs : List Cb),
        expire p fuel s now = some (s', t, cbs) →
        ordered s'.inflight ∧ ∀ l ∈ s'.inflight, tsLk l ≤ now)
  ∧ (∀ l : Lk, ordered (doneOp s l).inflight
      ∧ ∀ x ∈ (doneOp s l).inflight, tsLk x ≤ now) := by
  constructor
  · intro fuel s' t cbs h
    simp only [expire] at h
    split at h
    · exact absurd h (by simp)
    · rename_i s2 cbs2 hst
      cases h
      have hmid := step3_ordered p now fuel _ s2 cbs2 hst h1 h2
      have hsub := step4core_sublist p now s2.inflight
      constructor
      · exact List.Pairwise.sublist hsub hmid.1
      · intro x hx
        exact hmid.2 x (hsub.subset hx)
  · intro l
    have hsub : (s.inflight.erase l).Sublist s.inflight := List.erase_sublist l s.inflight
    exact ⟨List.Pairwise.sublist hsub h1, fun x hx => h2 x (hsub.subset hx)⟩

/-- Witness for C4: the first tick of the never-answered lookup run,
ending with the freshly sent lookup alone in flight. -/
theorem c4_order_preserved_witness :
    ordered (⟨[], [.remote sentRemote], []⟩ : Sched).inflight
  ∧ ∀ l ∈ (⟨[], [.remote sentRemote], []⟩ : Sched).inflight, tsLk l ≤ 0 :=
  (c4_order_preserved paramsOneAttempt ⟨[.remote freshRemote], [], []⟩ 0
      (List.Pairwise.nil) (by simp)).1
    10 ⟨[], [.remote sentRemote], []⟩ (some 3) [] (by decide)

/-- A second remote lookup sent one second after `sentRemote`. -/
def lateRemote : RL := ⟨true, 1, 0, 8, "y", 0, 1, [(0, 0)], false⟩

/-- **C4 counterexample.** The claim that the ordering is preserved by
the UDP `onReceived` TCP-upgrade path is false: with two in-flight
lookups ordered by timestamp (0 then 1), a truncated response for the
front lookup at time 5 resets its `_last` to 5 while it stays at the
front, leaving the queue ordered 5 then 1 — not non-decreasing. -/
theorem c4_upgrade_breaks_order :
    ordered (⟨[], [.remote sentRemote, .remote lateRemote], []⟩ : Sched).inflight
  ∧ ¬ ordered
      ((⟨[], [.remote sentRemote, .remote lateRemote], []⟩ : Sched).upgradeAt 0 5).inflight := by
  constructor
  · simp [ordered, tsLk, sentRemote, lateRemote]
  · simp [ordered, Sched.upgradeAt, udpTruncUpgrade, tsLk, sentRemote, lateRemote]

/-! ## Claim C8: inflight never exceeds capacity -/

/-- **C8.** In every reachable scheduler state the in-flight queue holds
at most `capacity` lookups: pushes into `_lookups` happen only in the
start-scheduled loop under its `size < capacity` guard, and every other
operation (`done`, `reschedule`, draining ready lookups, the timeout
pass, the in-place TCP upgrade) only removes from or leaves the
in-flight queue unchanged. -/
theorem c8_inflight_bounded (p : Params) (s : Sched) (h : Reach p s) :
    s.inflight.length ≤ p.capacity := by
  induction h with
  | init => exact Nat.zero_le _
  | add l s hr ih => exact ih
  | done l s hr ih =>
    exact le_trans (List.Sublist.length_le (List.erase_sublist l s.inflight)) ih
  | drain k s hr ih => exact ih
  | start n now s s' cbs hr hst ih => exact step3_length p now n s s' cbs hst ih
  | timeoutPass now s hr ih =>
    exact le_trans (List.Sublist.length_le (step4core_sublist p now s.inflight)) ih
  | upgrade i now s hr ih =>
    rw [upgradeAt_length]
    exact ih

/-- Witness for C8 at a concrete reachable state: the state after the
first tick of the never-answered run (add, then one start step). -/
theorem c8_inflight_bounded_witness :
    (⟨[], [.remote sentRemote], []⟩ : Sched).inflight.length
      ≤ paramsOneAttempt.capacity :=
  c8_inflight_bounded paramsOneAttempt ⟨[], [.remote sentRemote], []⟩
    (Reach.start 10 0 (addOp ⟨[], [], []⟩ (.remote freshRemote))
      ⟨[], [.remote sentRemote], []⟩ []
      (Reach.add (.remote freshRemote) ⟨[], [], []⟩ Reach.init) (by decide))

end DnsCpp
